import Mathlib

/-!
Shallow embedding of the AP-placement application (grid-tiling placement engine,
manual AP interaction handlers, coordinate mapping) together with proofs about it.

JavaScript `number` arithmetic is idealized as exact arithmetic: the placement
engine (`optimizationService.ts`), which computes `Math.sqrt(2)`, is embedded
over `ℝ`; the pixel-space interaction handlers (`App.tsx`,
`BuildingVisualizer.tsx`), which only add, subtract, multiply, divide and
compare, are embedded over `ℚ` so that they stay executable and decidable.
-/

/-- Coordinate pair from `types.ts` (`APCoordinate`), parametrized by the number
type of the embedding: `ℝ` for metric coordinates produced by the placement
engine, `ℚ` for natural-pixel coordinates of manually placed APs. -/
structure APCoordinate (α : Type) where
  x : α
  y : α
deriving DecidableEq, Repr

/-- Result record from `types.ts` (`OptimizationResult`): a count, an ordered
coordinate list and an optional diagnostic message. -/
structure OptimizationResult (α : Type) where
  nAP : ℕ
  coordinates : List (APCoordinate α)
  message : Option String
deriving DecidableEq, Repr

/-- `parseFloat(v.toFixed(2))`: round to 2 decimal places, nearest with ties
rounded up (all values the source rounds are nonnegative, where the JavaScript
decimal rounding agrees with `round`). -/
def round2 {α : Type} [LinearOrderedField α] [FloorRing α] (v : α) : α :=
  (round (100 * v) : ℤ) / 100

/-- `L_calc = Math.sqrt(2) * R_param` (optimizationService.ts line 17):
the side of the square cell inscribed in the coverage circle. -/
noncomputable def L_calc (R_param : ℝ) : ℝ :=
  Real.sqrt 2 * R_param

/-- `nAP_target = Math.max(1, Math.ceil(Area_E / Area_C))` with
`Area_C = L_calc * L_calc` and `Area_E = Largo * Ancho`
(optimizationService.ts line 28). -/
noncomputable def nAP_target (R_param Largo Ancho : ℝ) : ℤ :=
  max 1 ⌈Largo * Ancho / (L_calc R_param * L_calc R_param)⌉

/-- `num_placement_cols = Math.max(1, Math.ceil(Largo / L_calc))`
(optimizationService.ts line 37). -/
noncomputable def num_placement_cols (R_param Largo : ℝ) : ℤ :=
  max 1 ⌈Largo / L_calc R_param⌉

/-- `num_placement_rows = Math.max(1, Math.ceil(Ancho / L_calc))`
(optimizationService.ts line 38). -/
noncomputable def num_placement_rows (R_param Ancho : ℝ) : ℤ :=
  max 1 ⌈Ancho / L_calc R_param⌉

/-- The row-major enumeration of grid cell centers produced by the nested
`for` loops of `calculateAPPlacement`: row `r_idx` from 0, column `c_idx` from
0 within a row, emitting `((c_idx + 0.5) * cellW, (r_idx + 0.5) * cellH)`. -/
def placementGrid (rows cols : ℕ) (cellW cellH : ℝ) : List (APCoordinate ℝ) :=
  (List.range rows).flatMap (fun (r_idx : ℕ) =>
    (List.range cols).map (fun (c_idx : ℕ) =>
      ⟨((c_idx : ℝ) + 0.5) * cellW, ((r_idx : ℝ) + 0.5) * cellH⟩))

open Classical in
/-- Shallow embedding of `calculateAPPlacement` (optimizationService.ts).
The loop over rows and columns pushes cell centers in row-major order and
breaks as soon as `nAP_target` points have been pushed, i.e. it produces the
first `nAP_target` elements of the full row-major grid (`List.take`). -/
noncomputable def calculateAPPlacement (radius buildingLength buildingWidth : ℝ) :
    OptimizationResult ℝ :=
  let R_param := radius
  let Largo := buildingLength
  let Ancho := buildingWidth
  if R_param ≤ 0 ∨ Largo ≤ 0 ∨ Ancho ≤ 0 then
    ⟨0, [], some "Todos los valores de entrada deben ser positivos."⟩
  else if L_calc R_param < 1e-6 then
    ⟨0, [], some "El radio de cobertura produce un área de celda inválida o demasiado pequeña."⟩
  else
    let message : Option String :=
      if Largo < L_calc R_param ∨ Ancho < L_calc R_param then
        some "Las dimensiones del edificio son más pequeñas que el tamaño de celda del AP (L_calc) en una o ambas direcciones. Los APs se colocarán centrados dentro del edificio para cubrirlo lo mejor posible con la configuración dada."
      else none
    let cell_placement_width := Largo / (num_placement_cols R_param Largo : ℝ)
    let cell_placement_height := Ancho / (num_placement_rows R_param Ancho : ℝ)
    let resultado :=
      (placementGrid (num_placement_rows R_param Ancho).toNat
        (num_placement_cols R_param Largo).toNat
        cell_placement_width cell_placement_height).take
        (nAP_target R_param Largo Ancho).toNat
    let finalCoordinates := resultado.map (fun ap => ⟨round2 ap.x, round2 ap.y⟩)
    ⟨finalCoordinates.length, finalCoordinates, message⟩

/-- `MIN_DISTANCE_THRESHOLD = 5` (App.tsx, `handlePlanClick`): minimum distance
in natural-image pixels for a new AP to count as distinct. -/
def MIN_DISTANCE_THRESHOLD : ℚ := 5

/-- Squared Euclidean distance
`Math.pow(a.x - b.x, 2) + Math.pow(a.y - b.y, 2)` (App.tsx line 275). -/
def distanceSquared (a b : APCoordinate ℚ) : ℚ :=
  (a.x - b.x) ^ 2 + (a.y - b.y) ^ 2

/-- `manualAPs.some(existingAP => distanceSquared < MIN_DISTANCE_THRESHOLD ** 2)`
(App.tsx lines 274-277). -/
def isTooCloseToExisting (manualAPs : List (APCoordinate ℚ)) (coords : APCoordinate ℚ) :
    Bool :=
  manualAPs.any (fun existingAP =>
    decide (distanceSquared existingAP coords <
      MIN_DISTANCE_THRESHOLD * MIN_DISTANCE_THRESHOLD))

/-- `handlePlanClick` (App.tsx lines 271-285): append the clicked natural-pixel
point to the manual AP list unless it is too close to an existing AP, in which
case the list is unchanged. -/
def handlePlanClick (manualAPs : List (APCoordinate ℚ)) (coords : APCoordinate ℚ) :
    List (APCoordinate ℚ) :=
  if isTooCloseToExisting manualAPs coords then manualAPs else manualAPs ++ [coords]

/-- JavaScript `Array.prototype.map` with the index argument of the callback, indices
counting from `n`; used by `handleMoveManualAp` (`prevAPs.map((ap, i) => ...)`). -/
def mapWithIdx {α : Type} (f : ℕ → α → α) : ℕ → List α → List α
  | _, [] => []
  | n, a :: l => f n a :: mapWithIdx f (n + 1) l

/-- JavaScript `Array.prototype.filter` with the index argument of the callback,
indices counting from `n`; used by `handleDeleteManualAp`
(`prevAPs.filter((_, i) => i !== index)`, element ignored). -/
def filterWithIdx {α : Type} (p : ℕ → Bool) : ℕ → List α → List α
  | _, [] => []
  | n, a :: l => if p n then a :: filterWithIdx p (n + 1) l else filterWithIdx p (n + 1) l

/-- `handleMoveManualAp` (App.tsx lines 293-295):
`prevAPs.map((ap, i) => (i === index ? newCoords : ap))`. The incoming index is
an arbitrary JavaScript number, modelled as `ℤ`; array positions are `ℕ`. -/
def handleMoveManualAp (prevAPs : List (APCoordinate ℚ)) (index : ℤ)
    (newCoords : APCoordinate ℚ) : List (APCoordinate ℚ) :=
  mapWithIdx (fun i ap => if (i : ℤ) = index then newCoords else ap) 0 prevAPs

/-- `handleDeleteManualAp` (App.tsx lines 289-291):
`prevAPs.filter((_, i) => i !== index)`. -/
def handleDeleteManualAp (prevAPs : List (APCoordinate ℚ)) (index : ℤ) :
    List (APCoordinate ℚ) :=
  filterWithIdx (fun i => (i : ℤ) != index) 0 prevAPs

/-- Display→natural pixel conversion used by BuildingVisualizer
(`(v_on_displayed_image / displayed_size) * natural_size`, lines 209-210). -/
def displayToNatural (dispW dispH natW natH : ℚ) (p : APCoordinate ℚ) :
    APCoordinate ℚ :=
  ⟨p.x / dispW * natW, p.y / dispH * natH⟩

/-- Componentwise clamp into `[0, natW] × [0, natH]`
(`Math.max(0, Math.min(v, natural_size))`, BuildingVisualizer lines 258-259). -/
def clampToNatural (natW natH : ℚ) (p : APCoordinate ℚ) : APCoordinate ℚ :=
  ⟨max 0 (min p.x natW), max 0 (min p.y natH)⟩

/-- `handleApMouseDown` (BuildingVisualizer lines 216-233): the drag-start
offset is the pointer position on the displayed image minus the AP
display-space center `ap * (displayed_size / natural_size)`. -/
def dragStartOffset (dispW dispH natW natH : ℚ) (ap mouseDown : APCoordinate ℚ) :
    APCoordinate ℚ :=
  ⟨mouseDown.x - ap.x * (dispW / natW), mouseDown.y - ap.y * (dispH / natH)⟩

/-- Position computed by `handleGlobalMouseMove` (BuildingVisualizer lines
240-262): pointer position minus the drag-start offset in display space,
converted to natural pixels, clamped into the natural image bounds. -/
def handleGlobalMouseMovePos (dispW dispH natW natH : ℚ)
    (offset mouse : APCoordinate ℚ) : APCoordinate ℚ :=
  let newApCenterX_display := mouse.x - offset.x
  let newApCenterY_display := mouse.y - offset.y
  let originalX := newApCenterX_display / dispW * natW
  let originalY := newApCenterY_display / dispH * natH
  ⟨max 0 (min originalX natW), max 0 (min originalY natH)⟩

/-- The whole move-event side effect: `onMoveAp(draggingApIndex, pos)`, which is
replace-at-index in the manual AP list with the computed position. -/
def handleGlobalMouseMove (prevAPs : List (APCoordinate ℚ)) (draggingApIndex : ℤ)
    (dispW dispH natW natH : ℚ) (offset mouse : APCoordinate ℚ) :
    List (APCoordinate ℚ) :=
  handleMoveManualAp prevAPs draggingApIndex
    (handleGlobalMouseMovePos dispW dispH natW natH offset mouse)

/-- Natural width/height of the uploaded plan image (`PlanImageMetadata`),
known only once the image has decoded. -/
structure PlanDimensions where
  width : ℚ
  height : ℚ
deriving DecidableEq, Repr

/-- `pixelsPerMeterScaleManual` (App.tsx lines 481-485 and 702-709): starts at
0 and is set to `naturalWidth / buildingLength` only when the natural
dimensions are known with positive width and the parsed building length is
positive. -/
def pixelsPerMeterScaleManual (dims : Option PlanDimensions) (buildingLength : ℚ) : ℚ :=
  match dims with
  | some d => if 0 < d.width ∧ 0 < buildingLength then d.width / buildingLength else 0
  | none => 0

/-- The natural→metric conversion applied to each manual AP row
(`scale > 0 ? ap.x / scale : the N/A string`, the same for `y`): `none` stands
for the N/A marker string. The table additionally formats the number with
`.toFixed(2)`, which does not affect availability. -/
def naturalToMetric (dims : Option PlanDimensions) (buildingLength : ℚ)
    (ap : APCoordinate ℚ) : Option (ℚ × ℚ) :=
  let scale := pixelsPerMeterScaleManual dims buildingLength
  if 0 < scale then some (ap.x / scale, ap.y / scale) else none

/-- `validatedCoordinates` (App.tsx lines 180-189), applied after the whole
parsed array has passed the numeric type check: round each point to 2 decimals
(`parseFloat(v.toFixed(2))`), then keep the points lying inside
`[0, length] × [0, width]` (the `isNaN` guards of the source are vacuous in
exact arithmetic). -/
def aiValidatedCoordinates (length width : ℚ) (parsedData : List (APCoordinate ℚ)) :
    List (APCoordinate ℚ) :=
  (parsedData.map (fun ap => APCoordinate.mk (round2 ap.x) (round2 ap.y))).filter
    (fun ap => decide (0 ≤ ap.x ∧ ap.x ≤ length ∧ 0 ≤ ap.y ∧ ap.y ≤ width))

/-- The result assembled from the validated coordinate list
(App.tsx lines 190-194). -/
def validateAiCoordinates (length width : ℚ) (parsedData : List (APCoordinate ℚ)) :
    OptimizationResult ℚ :=
  let validatedCoordinates := aiValidatedCoordinates length width parsedData
  if validatedCoordinates.length = 0 ∧ 0 < parsedData.length then
    ⟨0, [],
      some "La IA devolvió coordenadas, pero ninguna era válida o estaba dentro de los límites del edificio después del formateo."⟩
  else
    ⟨validatedCoordinates.length, validatedCoordinates,
      if 0 < validatedCoordinates.length then none
      else some "La IA no devolvió coordenadas válidas."⟩

/-! Helper lemmas about the indexed map and filter. -/

lemma mapWithIdx_if_of_lt {α : Type} (c : α) (k : ℤ) :
    ∀ (l : List α) (n : ℕ), k < n →
      mapWithIdx (fun i a => if (i : ℤ) = k then c else a) n l = l
  | [], _, _ => rfl
  | a :: l, n, h => by
      simp only [mapWithIdx]
      rw [if_neg (by omega), mapWithIdx_if_of_lt c k l (n + 1) (by omega)]

lemma mapWithIdx_if_of_ge {α : Type} (c : α) (k : ℤ) :
    ∀ (l : List α) (n : ℕ), (n : ℤ) + l.length ≤ k →
      mapWithIdx (fun i a => if (i : ℤ) = k then c else a) n l = l
  | [], _, _ => rfl
  | a :: l, n, h => by
      simp only [List.length_cons] at h
      simp only [mapWithIdx]
      rw [if_neg (by omega), mapWithIdx_if_of_ge c k l (n + 1) (by push_cast; omega)]

lemma mapWithIdx_if_of_mem {α : Type} (c : α) (k : ℤ) :
    ∀ (l : List α) (n : ℕ), (n : ℤ) ≤ k → k < (n : ℤ) + l.length →
      mapWithIdx (fun i a => if (i : ℤ) = k then c else a) n l =
        l.take (k - n).toNat ++ c :: l.drop ((k - n).toNat + 1)
  | [], n, h1, h2 => by simp at h2; omega
  | a :: l, n, h1, h2 => by
      simp only [List.length_cons] at h2
      by_cases hk : (n : ℤ) = k
      · have h0 : (k - n).toNat = 0 := by omega
        simp only [mapWithIdx, if_pos hk, h0, List.take_zero, List.nil_append,
          List.drop_succ_cons, List.drop_zero]
        rw [mapWithIdx_if_of_lt c k l (n + 1) (by omega)]
      · have hm : (k - n).toNat = (k - (n + 1)).toNat + 1 := by omega
        simp only [mapWithIdx, if_neg hk, hm, List.take_succ_cons, List.drop_succ_cons]
        rw [mapWithIdx_if_of_mem c k l (n + 1) (by omega) (by push_cast; omega)]
        simp

lemma filterWithIdx_ne_of_lt {α : Type} (k : ℤ) :
    ∀ (l : List α) (n : ℕ), k < n →
      filterWithIdx (fun i => (i : ℤ) != k) n l = l
  | [], _, _ => rfl
  | a :: l, n, h => by
      simp only [filterWithIdx]
      rw [if_pos (by simp only [bne_iff_ne, ne_eq]; omega),
        filterWithIdx_ne_of_lt k l (n + 1) (by omega)]

lemma filterWithIdx_ne_of_ge {α : Type} (k : ℤ) :
    ∀ (l : List α) (n : ℕ), (n : ℤ) + l.length ≤ k →
      filterWithIdx (fun i => (i : ℤ) != k) n l = l
  | [], _, _ => rfl
  | a :: l, n, h => by
      simp only [List.length_cons] at h
      simp only [filterWithIdx]
      rw [if_pos (by simp only [bne_iff_ne, ne_eq]; omega),
        filterWithIdx_ne_of_ge k l (n + 1) (by push_cast; omega)]

lemma filterWithIdx_ne_of_mem {α : Type} (k : ℤ) :
    ∀ (l : List α) (n : ℕ), (n : ℤ) ≤ k → k < (n : ℤ) + l.length →
      filterWithIdx (fun i => (i : ℤ) != k) n l =
        l.take (k - n).toNat ++ l.drop ((k - n).toNat + 1)
  | [], n, h1, h2 => by simp at h2; omega
  | a :: l, n, h1, h2 => by
      simp only [List.length_cons] at h2
      by_cases hk : (n : ℤ) = k
      · have h0 : (k - n).toNat = 0 := by omega
        simp only [filterWithIdx, h0, List.take_zero, List.nil_append,
          List.drop_succ_cons, List.drop_zero]
        rw [if_neg (by simp only [bne_iff_ne, ne_eq, not_not]; omega),
          filterWithIdx_ne_of_lt k l (n + 1) (by omega)]
      · have hm : (k - n).toNat = (k - (n + 1)).toNat + 1 := by omega
        simp only [filterWithIdx, hm, List.take_succ_cons, List.drop_succ_cons]
        rw [if_pos (by simp only [bne_iff_ne, ne_eq]; omega),
          filterWithIdx_ne_of_mem k l (n + 1) (by omega) (by push_cast; omega)]
        simp

/-- Claim C5: the click-to-add proximity filter rejects a candidate exactly when
some existing AP is at squared Euclidean distance below 25 (= 5²); in
particular a candidate equal to an existing AP is always rejected, a candidate
at squared distance above 25 from the only existing AP is accepted; an accepted
click appends the point at the end of the manual AP list and a rejected click
leaves the list unchanged. -/
theorem proximityFilter_spec (p q : APCoordinate ℚ) (aps : List (APCoordinate ℚ)) :
    (isTooCloseToExisting aps p = true ↔
      ∃ r ∈ aps, distanceSquared r p < MIN_DISTANCE_THRESHOLD * MIN_DISTANCE_THRESHOLD) ∧
    isTooCloseToExisting [p] p = true ∧
    (MIN_DISTANCE_THRESHOLD * MIN_DISTANCE_THRESHOLD < distanceSquared q p →
      isTooCloseToExisting [q] p = false) ∧
    (isTooCloseToExisting aps p = false → handlePlanClick aps p = aps ++ [p]) ∧
    (isTooCloseToExisting aps p = true → handlePlanClick aps p = aps) := by
  refine ⟨?_, ?_, ?_, ?_, ?_⟩
  · simp [isTooCloseToExisting, List.any_eq_true]
  · simp [isTooCloseToExisting, distanceSquared, MIN_DISTANCE_THRESHOLD]
  · intro h
    simp only [isTooCloseToExisting, List.any_cons, List.any_nil, Bool.or_false,
      decide_eq_false_iff_not, not_lt]
    exact le_of_lt h
  · intro h
    simp [handlePlanClick, h]
  · intro h
    simp [handlePlanClick, h]

/-- Witness for `proximityFilter_spec`: a click on the empty list is accepted
and appended. -/
theorem proximityFilter_spec_witness :
    handlePlanClick [] ⟨3, 4⟩ = [⟨3, 4⟩] :=
  (proximityFilter_spec ⟨3, 4⟩ ⟨0, 0⟩ []).2.2.2.1 (by decide)

/-- Claim C7: for an in-range index, replace-at-index rewrites exactly the
element at that index (take/cons/drop decomposition) keeping the length, and
remove-at-index removes exactly that element, keeping the relative order of the
others and shrinking the length by 1. -/
theorem manualAp_move_delete_frame (aps : List (APCoordinate ℚ)) (i : ℕ)
    (h : i < aps.length) (c : APCoordinate ℚ) :
    handleMoveManualAp aps (i : ℤ) c = aps.take i ++ c :: aps.drop (i + 1) ∧
    (handleMoveManualAp aps (i : ℤ) c).length = aps.length ∧
    handleDeleteManualAp aps (i : ℤ) = aps.take i ++ aps.drop (i + 1) ∧
    (handleDeleteManualAp aps (i : ℤ)).length = aps.length - 1 := by
  have hmove : handleMoveManualAp aps (i : ℤ) c = aps.take i ++ c :: aps.drop (i + 1) := by
    unfold handleMoveManualAp
    rw [mapWithIdx_if_of_mem c (i : ℤ) aps 0 (by omega) (by push_cast; omega)]
    simp
  have hdel : handleDeleteManualAp aps (i : ℤ) = aps.take i ++ aps.drop (i + 1) := by
    unfold handleDeleteManualAp
    rw [filterWithIdx_ne_of_mem (i : ℤ) aps 0 (by omega) (by push_cast; omega)]
    simp
  refine ⟨hmove, ?_, hdel, ?_⟩
  · rw [hmove]
    simp only [List.length_append, List.length_take, List.length_cons, List.length_drop]
    omega
  · rw [hdel]
    simp only [List.length_append, List.length_take, List.length_drop]
    omega

/-- Witness for `manualAp_move_delete_frame` at a concrete three-element list
and index 1. -/
theorem manualAp_move_delete_frame_witness :
    1 < ([⟨1, 1⟩, ⟨2, 2⟩, ⟨3, 3⟩] : List (APCoordinate ℚ)).length ∧
    (handleMoveManualAp [⟨1, 1⟩, ⟨2, 2⟩, ⟨3, 3⟩] (1 : ℤ) ⟨9, 9⟩ =
        [⟨1, 1⟩, ⟨9, 9⟩, ⟨3, 3⟩] ∧
      (handleMoveManualAp [⟨1, 1⟩, ⟨2, 2⟩, ⟨3, 3⟩] (1 : ℤ) ⟨9, 9⟩).length = 3 ∧
      handleDeleteManualAp [⟨1, 1⟩, ⟨2, 2⟩, ⟨3, 3⟩] (1 : ℤ) = [⟨1, 1⟩, ⟨3, 3⟩] ∧
      (handleDeleteManualAp [⟨1, 1⟩, ⟨2, 2⟩, ⟨3, 3⟩] (1 : ℤ)).length = 2) :=
  ⟨by decide, manualAp_move_delete_frame [⟨1, 1⟩, ⟨2, 2⟩, ⟨3, 3⟩] 1 (by decide) ⟨9, 9⟩⟩

/-- Claim C10: an out-of-range index (negative, or at least the list length)
makes both replace-at-index and remove-at-index return the list unchanged. -/
theorem manualAp_out_of_range (aps : List (APCoordinate ℚ)) (k : ℤ)
    (h : k < 0 ∨ (aps.length : ℤ) ≤ k) (c : APCoordinate ℚ) :
    handleMoveManualAp aps k c = aps ∧ handleDeleteManualAp aps k = aps := by
  rcases h with h | h
  · exact ⟨mapWithIdx_if_of_lt c k aps 0 (by omega),
      filterWithIdx_ne_of_lt k aps 0 (by omega)⟩
  · exact ⟨mapWithIdx_if_of_ge c k aps 0 (by omega),
      filterWithIdx_ne_of_ge k aps 0 (by omega)⟩

/-- Witness for `manualAp_out_of_range` at index `-1` of a singleton list. -/
theorem manualAp_out_of_range_witness :
    handleMoveManualAp [⟨1, 2⟩] (-1 : ℤ) ⟨7, 7⟩ = [⟨1, 2⟩] ∧
    handleDeleteManualAp [⟨1, 2⟩] (-1 : ℤ) = [⟨1, 2⟩] :=
  manualAp_out_of_range [⟨1, 2⟩] (-1) (Or.inl (by decide)) ⟨7, 7⟩

/-- Claim C6: on a drag-move event, the new position is the pointer position
minus the drag-start offset, converted from display to natural pixels and
clamped componentwise into `[0, natW] × [0, natH]`; that position replaces the
dragged index in the manual AP list. Concrete scenario at display scale 1: an
AP at natural (100,100) grabbed at (105,105) gives offset (5,5), and a move to
the display position of natural (150,100) puts the AP at (145,95). -/
theorem dragMove_spec (dispW dispH natW natH : ℚ) (off mouse : APCoordinate ℚ)
    (aps : List (APCoordinate ℚ)) (i : ℤ) (hW : 0 ≤ natW) (hH : 0 ≤ natH) :
    (handleGlobalMouseMovePos dispW dispH natW natH off mouse =
      clampToNatural natW natH (displayToNatural dispW dispH natW natH
        ⟨mouse.x - off.x, mouse.y - off.y⟩)) ∧
    (0 ≤ (handleGlobalMouseMovePos dispW dispH natW natH off mouse).x ∧
      (handleGlobalMouseMovePos dispW dispH natW natH off mouse).x ≤ natW ∧
      0 ≤ (handleGlobalMouseMovePos dispW dispH natW natH off mouse).y ∧
      (handleGlobalMouseMovePos dispW dispH natW natH off mouse).y ≤ natH) ∧
    (handleGlobalMouseMove aps i dispW dispH natW natH off mouse =
      handleMoveManualAp aps i (handleGlobalMouseMovePos dispW dispH natW natH off mouse)) ∧
    (dragStartOffset 200 200 200 200 ⟨100, 100⟩ ⟨105, 105⟩ = ⟨5, 5⟩ ∧
      handleGlobalMouseMovePos 200 200 200 200 ⟨5, 5⟩ ⟨150, 100⟩ = ⟨145, 95⟩) := by
  refine ⟨rfl, ⟨le_max_left _ _, max_le hW (min_le_right _ _),
    le_max_left _ _, max_le hH (min_le_right _ _)⟩, rfl, ?_, ?_⟩
  · simp only [dragStartOffset, APCoordinate.mk.injEq]
    norm_num
  · simp only [handleGlobalMouseMovePos, APCoordinate.mk.injEq]
    norm_num [min_def, max_def]

/-- Witness for `dragMove_spec`: the computed drag position stays inside the
natural bounds of a 200×200 image. -/
theorem dragMove_spec_witness :
    0 ≤ (200 : ℚ) ∧
    (0 ≤ (handleGlobalMouseMovePos 200 200 200 200 ⟨5, 5⟩ ⟨150, 100⟩).x ∧
      (handleGlobalMouseMovePos 200 200 200 200 ⟨5, 5⟩ ⟨150, 100⟩).x ≤ 200 ∧
      0 ≤ (handleGlobalMouseMovePos 200 200 200 200 ⟨5, 5⟩ ⟨150, 100⟩).y ∧
      (handleGlobalMouseMovePos 200 200 200 200 ⟨5, 5⟩ ⟨150, 100⟩).y ≤ 200) :=
  ⟨by norm_num,
    (dragMove_spec 200 200 200 200 ⟨5, 5⟩ ⟨150, 100⟩ [] 0 (by norm_num) (by norm_num)).2.1⟩

/-- Claim C8: the natural→metric conversion of a manual AP yields the
unavailable marker (`none`, rendered as the string N/A) whenever the natural
image dimensions are unknown, the natural width is not positive, or the
building length is not positive; and when both are positive it divides both
pixel coordinates by the same scale `naturalWidth / buildingLength`. -/
theorem naturalToMetric_spec (dims : Option PlanDimensions) (buildingLength : ℚ)
    (ap : APCoordinate ℚ) :
    ((dims = none ∨ (∃ d, dims = some d ∧ d.width ≤ 0) ∨ buildingLength ≤ 0) →
      naturalToMetric dims buildingLength ap = none) ∧
    (∀ d, dims = some d → 0 < d.width → 0 < buildingLength →
      naturalToMetric dims buildingLength ap =
        some (ap.x / (d.width / buildingLength), ap.y / (d.width / buildingLength))) := by
  constructor
  · intro h
    have hscale : pixelsPerMeterScaleManual dims buildingLength = 0 := by
      rcases h with h | ⟨d, hd, hw⟩ | h
      · subst h
        rfl
      · subst hd
        simp only [pixelsPerMeterScaleManual]
        rw [if_neg]
        rintro ⟨h1, _⟩
        exact absurd h1 (not_lt.mpr hw)
      · cases dims with
        | none => rfl
        | some d =>
          simp only [pixelsPerMeterScaleManual]
          rw [if_neg]
          rintro ⟨_, h2⟩
          exact absurd h2 (not_lt.mpr h)
    simp only [naturalToMetric, hscale]
    rw [if_neg (lt_irrefl 0)]
  · intro d hd hw hl
    subst hd
    have hscale : pixelsPerMeterScaleManual (some d) buildingLength =
        d.width / buildingLength := by
      simp only [pixelsPerMeterScaleManual]
      rw [if_pos ⟨hw, hl⟩]
    simp only [naturalToMetric, hscale]
    rw [if_pos (div_pos hw hl)]

/-- Witness for `naturalToMetric_spec`: an 800-pixel-wide plan of a 40 m
building converts pixel point (100, 200) to (5, 10) meters. -/
theorem naturalToMetric_spec_witness :
    naturalToMetric (some ⟨800, 600⟩) 40 ⟨100, 200⟩ = some (5, 10) := by
  have h := (naturalToMetric_spec (some ⟨800, 600⟩) 40 ⟨100, 200⟩).2
    ⟨800, 600⟩ rfl (by norm_num) (by norm_num)
  rw [h]
  norm_num

/-- Claim C9 as stated is false on the code: validation rounds each suggested
point to 2 decimals before the bounds check, so a point outside
`[0, length] × [0, width]` can round back inside and survive instead of being
dropped. At `length = width = 10` the suggestion (10.004, 5) lies outside the
building, yet the result keeps it (as (10, 5)) with count 1 instead of
reporting an empty, messaged result. -/
theorem aiValidation_counterexample :
    ¬ ((10004 / 1000 : ℚ) ≤ 10) ∧
    (validateAiCoordinates 10 10 [⟨10004 / 1000, 5⟩]).nAP = 1 ∧
    (validateAiCoordinates 10 10 [⟨10004 / 1000, 5⟩]).coordinates = [⟨10, 5⟩] := by
  have h1 : round2 ((10004 : ℚ) / 1000) = 10 := by norm_num [round2, round_eq]
  have h2 : round2 (5 : ℚ) = 5 := by norm_num [round2, round_eq]
  have hval : aiValidatedCoordinates 10 10 [⟨10004 / 1000, 5⟩] = [⟨10, 5⟩] := by
    simp only [aiValidatedCoordinates, List.map_cons, List.map_nil, h1, h2,
      List.filter_cons, List.filter_nil]
    rw [if_pos]
    simp only [decide_eq_true_eq]
    norm_num
  refine ⟨by norm_num, ?_, ?_⟩
  · simp only [validateAiCoordinates, hval]
    rw [if_neg (by simp)]
    rfl
  · simp only [validateAiCoordinates, hval]
    rw [if_neg (by simp)]

/-- Claim C9 amended: each suggested point is rounded to 2 decimals and then
dropped (not clamped) unless it lies inside `[0, length] × [0, width]`; the
returned coordinates are exactly the surviving points and the count equals
their number; if every point of a non-empty suggestion list is dropped, the
result is an empty coordinate set with a non-empty message. -/
theorem aiValidation_amended (length width : ℚ) (parsedData : List (APCoordinate ℚ)) :
    (validateAiCoordinates length width parsedData).nAP =
      (aiValidatedCoordinates length width parsedData).length ∧
    (validateAiCoordinates length width parsedData).coordinates =
      aiValidatedCoordinates length width parsedData ∧
    (∀ ap ∈ (validateAiCoordinates length width parsedData).coordinates,
      0 ≤ ap.x ∧ ap.x ≤ length ∧ 0 ≤ ap.y ∧ ap.y ≤ width) ∧
    (parsedData ≠ [] → aiValidatedCoordinates length width parsedData = [] →
      (validateAiCoordinates length width parsedData).coordinates = [] ∧
      ∃ m, (validateAiCoordinates length width parsedData).message = some m ∧ m ≠ "") := by
  unfold validateAiCoordinates
  by_cases h : (aiValidatedCoordinates length width parsedData).length = 0 ∧
      0 < parsedData.length
  · rw [if_pos h]
    have hnil : aiValidatedCoordinates length width parsedData = [] :=
      List.length_eq_zero.mp h.1
    refine ⟨by rw [h.1], by rw [hnil], by simp, fun _ _ => ⟨rfl, _, rfl, by decide⟩⟩
  · rw [if_neg h]
    refine ⟨rfl, rfl, ?_, ?_⟩
    · intro ap hap
      have := List.of_mem_filter hap
      simpa using this
    · intro hne hnil
      exact absurd ⟨by rw [hnil]; rfl, List.length_pos.mpr hne⟩ h

/-- Witness for `aiValidation_amended`: a non-empty suggestion list whose only
point is invalid produces an empty coordinate set with a non-empty message. -/
theorem aiValidation_amended_witness :
    ([⟨-1, 5⟩] : List (APCoordinate ℚ)) ≠ [] ∧
    ((validateAiCoordinates 10 10 [⟨-1, 5⟩]).coordinates = [] ∧
      ∃ m, (validateAiCoordinates 10 10 [⟨-1, 5⟩]).message = some m ∧ m ≠ "") := by
  have h1 : round2 (-1 : ℚ) = -1 := by norm_num [round2, round_eq]
  have hval : aiValidatedCoordinates 10 10 [⟨-1, 5⟩] = [] := by
    simp only [aiValidatedCoordinates, List.map_cons, List.map_nil, h1,
      List.filter_cons, List.filter_nil]
    rw [if_neg]
    simp only [decide_eq_true_eq]
    norm_num
  exact ⟨by simp, (aiValidation_amended 10 10 [⟨-1, 5⟩]).2.2.2 (by simp) hval⟩

/-! Helper lemmas about the placement engine. -/

lemma sqrt_two_pos : 0 < Real.sqrt 2 :=
  Real.sqrt_pos.mpr (by norm_num)

lemma sqrt_two_gt : (1.414 : ℝ) < Real.sqrt 2 :=
  (Real.lt_sqrt (by norm_num)).mpr (by norm_num)

lemma sqrt_two_lt : Real.sqrt 2 < 1.415 := by
  nlinarith [Real.sqrt_nonneg 2, Real.sq_sqrt (show (0 : ℝ) ≤ 2 by norm_num)]

lemma L_calc_pos {R_param : ℝ} (hr : 0 < R_param) : 0 < L_calc R_param :=
  mul_pos sqrt_two_pos hr

lemma L_calc_sq (R_param : ℝ) : L_calc R_param * L_calc R_param = 2 * R_param ^ 2 := by
  unfold L_calc
  rw [show Real.sqrt 2 * R_param * (Real.sqrt 2 * R_param) =
    Real.sqrt 2 ^ 2 * R_param ^ 2 by ring, Real.sq_sqrt (by norm_num)]

lemma placementGrid_length (rows cols : ℕ) (cellW cellH : ℝ) :
    (placementGrid rows cols cellW cellH).length = rows * cols := by
  simp [placementGrid, List.length_flatMap, Function.comp_def, List.map_const',
    List.sum_replicate, smul_eq_mul]

lemma mem_placementGrid {rows cols : ℕ} {cellW cellH : ℝ} {ap : APCoordinate ℝ}
    (h : ap ∈ placementGrid rows cols cellW cellH) :
    ∃ r_idx : ℕ, r_idx < rows ∧ ∃ c_idx : ℕ, c_idx < cols ∧
      ap = ⟨((c_idx : ℝ) + 0.5) * cellW, ((r_idx : ℝ) + 0.5) * cellH⟩ := by
  unfold placementGrid at h
  obtain ⟨r_idx, hr_mem, h2⟩ := List.mem_flatMap.mp h
  obtain ⟨c_idx, hc_mem, hap⟩ := List.mem_map.mp h2
  exact ⟨r_idx, List.mem_range.mp hr_mem, c_idx, List.mem_range.mp hc_mem, hap.symm⟩

lemma placementGrid_take_rows (m rows cols : ℕ) (cellW cellH : ℝ) (hm : m ≤ rows) :
    (placementGrid rows cols cellW cellH).take (m * cols) =
      placementGrid m cols cellW cellH := by
  obtain ⟨k, rfl⟩ := Nat.exists_eq_add_of_le hm
  unfold placementGrid
  rw [List.range_add, List.flatMap_append,
    show m * cols = ((List.range m).flatMap (fun (r_idx : ℕ) =>
      (List.range cols).map (fun (c_idx : ℕ) =>
        (⟨((c_idx : ℝ) + 0.5) * cellW, ((r_idx : ℝ) + 0.5) * cellH⟩ :
          APCoordinate ℝ)))).length by
      rw [← placementGrid_length m cols cellW cellH]; rfl,
    List.take_left]

lemma ceil_mul_le_of_nonneg {a b : ℝ} (ha : 0 ≤ a) (hb : 0 ≤ b) :
    ⌈a * b⌉ ≤ ⌈a⌉ * ⌈b⌉ := by
  rw [Int.ceil_le]
  push_cast
  exact mul_le_mul (Int.le_ceil a) (Int.le_ceil b) hb
    (by exact_mod_cast Int.ceil_nonneg ha)

lemma nAP_target_pos_eq {R_param Largo Ancho : ℝ} (hr : 0 < R_param) (hl : 0 < Largo)
    (hw : 0 < Ancho) : nAP_target R_param Largo Ancho = ⌈Largo * Ancho / (2 * R_param ^ 2)⌉ := by
  unfold nAP_target
  rw [L_calc_sq]
  have h : (0 : ℝ) < Largo * Ancho / (2 * R_param ^ 2) := by positivity
  have h2 := Int.ceil_pos.mpr h
  exact max_eq_right (by omega)

lemma num_placement_cols_pos_eq {R_param Largo : ℝ} (hr : 0 < R_param) (hl : 0 < Largo) :
    num_placement_cols R_param Largo = ⌈Largo / L_calc R_param⌉ := by
  unfold num_placement_cols
  have h2 := Int.ceil_pos.mpr (div_pos hl (L_calc_pos hr))
  exact max_eq_right (by omega)

lemma num_placement_rows_pos_eq {R_param Ancho : ℝ} (hr : 0 < R_param) (hw : 0 < Ancho) :
    num_placement_rows R_param Ancho = ⌈Ancho / L_calc R_param⌉ := by
  unfold num_placement_rows
  have h2 := Int.ceil_pos.mpr (div_pos hw (L_calc_pos hr))
  exact max_eq_right (by omega)

lemma one_le_num_placement_cols (R_param Largo : ℝ) : 1 ≤ num_placement_cols R_param Largo :=
  le_max_left _ _

lemma one_le_num_placement_rows (R_param Ancho : ℝ) : 1 ≤ num_placement_rows R_param Ancho :=
  le_max_left _ _

lemma one_le_nAP_target (R_param Largo Ancho : ℝ) : 1 ≤ nAP_target R_param Largo Ancho :=
  le_max_left _ _

lemma nAP_target_le_grid {R_param Largo Ancho : ℝ} (hr : 0 < R_param) (hl : 0 < Largo)
    (hw : 0 < Ancho) :
    nAP_target R_param Largo Ancho ≤
      num_placement_rows R_param Ancho * num_placement_cols R_param Largo := by
  rw [nAP_target_pos_eq hr hl hw, num_placement_rows_pos_eq hr hw,
    num_placement_cols_pos_eq hr hl]
  have hc := L_calc_pos hr
  have key : Largo * Ancho / (2 * R_param ^ 2) =
      (Ancho / L_calc R_param) * (Largo / L_calc R_param) := by
    rw [← L_calc_sq]
    field_simp
    ring
  rw [key]
  exact ceil_mul_le_of_nonneg (by positivity) (by positivity)

open Classical in
lemma calculateAPPlacement_pos_eval (r l w : ℝ) (h1 : ¬(r ≤ 0 ∨ l ≤ 0 ∨ w ≤ 0))
    (h2 : ¬(L_calc r < 1e-6)) :
    calculateAPPlacement r l w =
      ⟨(((placementGrid (num_placement_rows r w).toNat (num_placement_cols r l).toNat
            (l / (num_placement_cols r l : ℝ)) (w / (num_placement_rows r w : ℝ))).take
            (nAP_target r l w).toNat).map
          (fun ap => APCoordinate.mk (round2 ap.x) (round2 ap.y))).length,
        ((placementGrid (num_placement_rows r w).toNat (num_placement_cols r l).toNat
            (l / (num_placement_cols r l : ℝ)) (w / (num_placement_rows r w : ℝ))).take
            (nAP_target r l w).toNat).map
          (fun ap => APCoordinate.mk (round2 ap.x) (round2 ap.y)),
        if l < L_calc r ∨ w < L_calc r then
          some "Las dimensiones del edificio son más pequeñas que el tamaño de celda del AP (L_calc) en una o ambas direcciones. Los APs se colocarán centrados dentro del edificio para cubrirlo lo mejor posible con la configuración dada."
        else none⟩ := by
  unfold calculateAPPlacement
  rw [if_neg h1, if_neg h2]

lemma calculateAPPlacement_degenerate_input (r l w : ℝ) (h : r ≤ 0 ∨ l ≤ 0 ∨ w ≤ 0) :
    calculateAPPlacement r l w =
      ⟨0, [], some "Todos los valores de entrada deben ser positivos."⟩ := by
  unfold calculateAPPlacement
  rw [if_pos h]

lemma calculateAPPlacement_degenerate_cell (r l w : ℝ) (h1 : ¬(r ≤ 0 ∨ l ≤ 0 ∨ w ≤ 0))
    (h2 : L_calc r < 1e-6) :
    calculateAPPlacement r l w =
      ⟨0, [], some "El radio de cobertura produce un área de celda inválida o demasiado pequeña."⟩ := by
  unfold calculateAPPlacement
  rw [if_neg h1, if_pos h2]

lemma round2_le_add (x : ℝ) : round2 x ≤ x + 1 / 200 := by
  unfold round2
  have h := abs_sub_round (100 * x)
  rw [abs_le] at h
  have h2 : ((round (100 * x) : ℤ) : ℝ) ≤ 100 * x + 1 / 2 := by linarith [h.1]
  linarith

lemma round2_nonneg {x : ℝ} (hx : 0 ≤ x) : 0 ≤ round2 x := by
  unfold round2
  have h : (0 : ℤ) ≤ round (100 * x) := by
    rw [round_eq]
    exact Int.floor_nonneg.mpr (by linarith)
  exact div_nonneg (by exact_mod_cast h) (by norm_num)

lemma calculateAPPlacement_coordinates_eq (r l w : ℝ) (h1 : ¬(r ≤ 0 ∨ l ≤ 0 ∨ w ≤ 0))
    (h2 : ¬(L_calc r < 1e-6)) :
    (calculateAPPlacement r l w).coordinates =
      ((placementGrid (num_placement_rows r w).toNat (num_placement_cols r l).toNat
          (l / (num_placement_cols r l : ℝ)) (w / (num_placement_rows r w : ℝ))).take
          (nAP_target r l w).toNat).map
        (fun ap => APCoordinate.mk (round2 ap.x) (round2 ap.y)) := by
  rw [calculateAPPlacement_pos_eval r l w h1 h2]

/-- Claim C1: for positive inputs whose cell side passes the 1e-6 guard, the
returned count is at least 1 and equals `⌈length * width / (2 * radius²)⌉`:
the row-major enumeration capped at the target emits exactly the target number
of coordinates because the grid holds at least that many cells. -/
theorem calculateAPPlacement_count (r l w : ℝ) (hr : 0 < r) (hl : 0 < l) (hw : 0 < w)
    (hcell : 1e-6 ≤ Real.sqrt 2 * r) :
    1 ≤ (calculateAPPlacement r l w).nAP ∧
    ((calculateAPPlacement r l w).nAP : ℤ) = ⌈l * w / (2 * r ^ 2)⌉ := by
  have h1 : ¬(r ≤ 0 ∨ l ≤ 0 ∨ w ≤ 0) := by push_neg; exact ⟨hr, hl, hw⟩
  have h2 : ¬(L_calc r < 1e-6) := not_lt.mpr hcell
  have hnap : (calculateAPPlacement r l w).nAP =
      min (nAP_target r l w).toNat
        ((num_placement_rows r w).toNat * (num_placement_cols r l).toNat) := by
    rw [calculateAPPlacement_pos_eval r l w h1 h2]
    simp [placementGrid_length]
  have hrows0 : (0 : ℤ) ≤ num_placement_rows r w :=
    le_trans zero_le_one (one_le_num_placement_rows r w)
  have hcols0 : (0 : ℤ) ≤ num_placement_cols r l :=
    le_trans zero_le_one (one_le_num_placement_cols r l)
  have hmulcast : (((num_placement_rows r w).toNat * (num_placement_cols r l).toNat : ℕ) : ℤ)
      = num_placement_rows r w * num_placement_cols r l := by
    push_cast [Int.toNat_of_nonneg hrows0, Int.toNat_of_nonneg hcols0]
    ring
  have htle : (nAP_target r l w).toNat ≤
      (num_placement_rows r w).toNat * (num_placement_cols r l).toNat := by
    have hg := nAP_target_le_grid hr hl hw
    omega
  rw [hnap, min_eq_left htle]
  have htgt1 := one_le_nAP_target r l w
  constructor
  · omega
  · have h3 : (0 : ℤ) ≤ nAP_target r l w := le_trans zero_le_one htgt1
    rw [Int.toNat_of_nonneg h3, nAP_target_pos_eq hr hl hw]

/-- Witness for `calculateAPPlacement_count` at radius 10, 50 m × 30 m. -/
theorem calculateAPPlacement_count_witness :
    (0 : ℝ) < 10 ∧ (0 : ℝ) < 50 ∧ (0 : ℝ) < 30 ∧ (1e-6 : ℝ) ≤ Real.sqrt 2 * 10 ∧
    (1 ≤ (calculateAPPlacement 10 50 30).nAP ∧
      ((calculateAPPlacement 10 50 30).nAP : ℤ) = ⌈(50 : ℝ) * 30 / (2 * 10 ^ 2)⌉) := by
  have hs : (1e-6 : ℝ) ≤ Real.sqrt 2 * 10 := by nlinarith [sqrt_two_gt]
  exact ⟨by norm_num, by norm_num, by norm_num, hs,
    calculateAPPlacement_count 10 50 30 (by norm_num) (by norm_num) (by norm_num) hs⟩

/-- Claim C4: on a non-positive radius, length or width, and likewise when the
cell side falls below the 1e-6 guard, the placement returns (without throwing:
the embedding is a total function) count 0, no coordinates, and a non-empty
explanatory message. -/
theorem calculateAPPlacement_degenerate (r l w : ℝ)
    (h : (r ≤ 0 ∨ l ≤ 0 ∨ w ≤ 0) ∨ L_calc r < 1e-6) :
    (calculateAPPlacement r l w).nAP = 0 ∧
    (calculateAPPlacement r l w).coordinates = [] ∧
    ∃ m, (calculateAPPlacement r l w).message = some m ∧ m ≠ "" := by
  by_cases h1 : r ≤ 0 ∨ l ≤ 0 ∨ w ≤ 0
  · rw [calculateAPPlacement_degenerate_input r l w h1]
    exact ⟨rfl, rfl, _, rfl, by decide⟩
  · rcases h with h | h2
    · exact absurd h h1
    · rw [calculateAPPlacement_degenerate_cell r l w h1 h2]
      exact ⟨rfl, rfl, _, rfl, by decide⟩

/-- Witness for `calculateAPPlacement_degenerate`: radius 0 with a 10 m × 10 m
building yields count 0, no coordinates and a non-empty message. -/
theorem calculateAPPlacement_degenerate_witness :
    (0 : ℝ) ≤ 0 ∧
    ((calculateAPPlacement 0 10 10).nAP = 0 ∧
      (calculateAPPlacement 0 10 10).coordinates = [] ∧
      ∃ m, (calculateAPPlacement 0 10 10).message = some m ∧ m ≠ "") :=
  ⟨le_refl 0, calculateAPPlacement_degenerate 0 10 10 (Or.inl (Or.inl (le_refl 0)))⟩

lemma round2_cell_bounds {idx : ℕ} {bound den : ℝ} (hb : 0 < bound) (hden : 0 < den)
    (hidx : (idx : ℝ) + 1 ≤ den) :
    0 ≤ round2 (((idx : ℝ) + 0.5) * (bound / den)) ∧
    round2 (((idx : ℝ) + 0.5) * (bound / den)) ≤ bound + 1 / 200 := by
  have hraw0 : (0 : ℝ) ≤ ((idx : ℝ) + 0.5) * (bound / den) := by positivity
  have hrawle : ((idx : ℝ) + 0.5) * (bound / den) ≤ bound := by
    have step : ((idx : ℝ) + 0.5) * (bound / den) ≤ den * (bound / den) := by
      apply mul_le_mul_of_nonneg_right _ (le_of_lt (div_pos hb hden))
      have h05 : (0.5 : ℝ) ≤ 1 := by norm_num
      linarith
    rwa [mul_div_cancel₀ bound (ne_of_gt hden)] at step
  exact ⟨round2_nonneg hraw0, le_trans (round2_le_add _) (by linarith)⟩

/-- Claim C2 amended: every returned coordinate satisfies `0 ≤ x` and `0 ≤ y`,
but the final rounding to 2 decimal places can push a coordinate past the
building dimension by up to half of 0.01, so the upper bounds are
`x ≤ length + 1/200` and `y ≤ width + 1/200` (the pre-rounding cell centers do
satisfy `x ≤ length` and `y ≤ width`). -/
theorem calculateAPPlacement_bounds_amended (r l w : ℝ) (ap : APCoordinate ℝ)
    (hmem : ap ∈ (calculateAPPlacement r l w).coordinates) :
    0 ≤ ap.x ∧ ap.x ≤ l + 1 / 200 ∧ 0 ≤ ap.y ∧ ap.y ≤ w + 1 / 200 := by
  by_cases hdeg : r ≤ 0 ∨ l ≤ 0 ∨ w ≤ 0
  · rw [calculateAPPlacement_degenerate_input r l w hdeg] at hmem
    simp at hmem
  · by_cases hcell : L_calc r < 1e-6
    · rw [calculateAPPlacement_degenerate_cell r l w hdeg hcell] at hmem
      simp at hmem
    · have hpos := hdeg
      push_neg at hpos
      obtain ⟨hr, hl, hw⟩ := hpos
      rw [calculateAPPlacement_coordinates_eq r l w hdeg hcell] at hmem
      obtain ⟨b, hbtake, rfl⟩ := List.mem_map.mp hmem
      have hbgrid := List.mem_of_mem_take hbtake
      obtain ⟨ri, hri, ci, hci, rfl⟩ := mem_placementGrid hbgrid
      have hcols0 : (0 : ℤ) ≤ num_placement_cols r l :=
        le_trans zero_le_one (one_le_num_placement_cols r l)
      have hrows0 : (0 : ℤ) ≤ num_placement_rows r w :=
        le_trans zero_le_one (one_le_num_placement_rows r w)
      have hcastC : (((num_placement_cols r l).toNat : ℕ) : ℝ) =
          ((num_placement_cols r l : ℤ) : ℝ) := by
        rw [← Int.cast_natCast, Int.toNat_of_nonneg hcols0]
      have hcastR : (((num_placement_rows r w).toNat : ℕ) : ℝ) =
          ((num_placement_rows r w : ℤ) : ℝ) := by
        rw [← Int.cast_natCast, Int.toNat_of_nonneg hrows0]
      have hCpos : (0 : ℝ) < (num_placement_cols r l : ℝ) := by
        rw [← hcastC]
        exact_mod_cast lt_of_lt_of_le zero_lt_one (by omega :
          1 ≤ (num_placement_cols r l).toNat)
      have hRpos : (0 : ℝ) < (num_placement_rows r w : ℝ) := by
        rw [← hcastR]
        exact_mod_cast lt_of_lt_of_le zero_lt_one (by omega :
          1 ≤ (num_placement_rows r w).toNat)
      have hciC : (ci : ℝ) + 1 ≤ (num_placement_cols r l : ℝ) := by
        rw [← hcastC]
        exact_mod_cast hci
      have hriR : (ri : ℝ) + 1 ≤ (num_placement_rows r w : ℝ) := by
        rw [← hcastR]
        exact_mod_cast hri
      have hx := round2_cell_bounds hl hCpos hciC
      have hy := round2_cell_bounds hw hRpos hriR
      exact ⟨hx.1, hx.2, hy.1, hy.2⟩

lemma ceil_div_L_calc {R a : ℝ} {z : ℤ} (hR : 0 < R) (hz : 1 ≤ z)
    (hlow : ((z : ℝ) - 1) * (1.415 * R) < a) (hhigh : a ≤ (z : ℝ) * (1.414 * R)) :
    ⌈a / L_calc R⌉ = z := by
  have hLpos := L_calc_pos hR
  have hz_cast : (1 : ℝ) ≤ (z : ℝ) := by exact_mod_cast hz
  have hs1 : Real.sqrt 2 * R ≤ 1.415 * R :=
    mul_le_mul_of_nonneg_right (le_of_lt sqrt_two_lt) (le_of_lt hR)
  have hs2 : 1.414 * R ≤ Real.sqrt 2 * R :=
    mul_le_mul_of_nonneg_right (le_of_lt sqrt_two_gt) (le_of_lt hR)
  rw [Int.ceil_eq_iff]
  constructor
  · rw [lt_div_iff hLpos]
    unfold L_calc
    have key : ((z : ℝ) - 1) * (Real.sqrt 2 * R) ≤ ((z : ℝ) - 1) * (1.415 * R) :=
      mul_le_mul_of_nonneg_left hs1 (by linarith)
    linarith
  · rw [div_le_iff hLpos]
    unfold L_calc
    have key : (z : ℝ) * (1.414 * R) ≤ (z : ℝ) * (Real.sqrt 2 * R) :=
      mul_le_mul_of_nonneg_left hs2 (by linarith)
    linarith

lemma num_placement_cols_eval {R a : ℝ} {z : ℤ} (hR : 0 < R) (hz : 1 ≤ z)
    (hlow : ((z : ℝ) - 1) * (1.415 * R) < a) (hhigh : a ≤ (z : ℝ) * (1.414 * R)) :
    num_placement_cols R a = z := by
  unfold num_placement_cols
  rw [ceil_div_L_calc hR hz hlow hhigh]
  exact max_eq_right hz

lemma num_placement_rows_eval {R a : ℝ} {z : ℤ} (hR : 0 < R) (hz : 1 ≤ z)
    (hlow : ((z : ℝ) - 1) * (1.415 * R) < a) (hhigh : a ≤ (z : ℝ) * (1.414 * R)) :
    num_placement_rows R a = z := by
  unfold num_placement_rows
  rw [ceil_div_L_calc hR hz hlow hhigh]
  exact max_eq_right hz

/-- Claim C3: at radius 10 on a 50 m × 30 m building the engine uses a 4 × 3
grid with cell pitch 12.5 m × 10 m, emits exactly 8 coordinates in row-major
order, the first at (6.25, 5), and attaches no message. -/
theorem calculateAPPlacement_concrete_scenario :
    calculateAPPlacement 10 50 30 =
      ⟨8, [⟨6.25, 5⟩, ⟨18.75, 5⟩, ⟨31.25, 5⟩, ⟨43.75, 5⟩,
        ⟨6.25, 15⟩, ⟨18.75, 15⟩, ⟨31.25, 15⟩, ⟨43.75, 15⟩], none⟩ := by
  have hdeg : ¬((10 : ℝ) ≤ 0 ∨ (50 : ℝ) ≤ 0 ∨ (30 : ℝ) ≤ 0) := by norm_num
  have hcell : ¬(L_calc 10 < 1e-6) := by
    rw [not_lt]
    unfold L_calc
    nlinarith [sqrt_two_gt]
  have hcols : num_placement_cols 10 50 = 4 :=
    num_placement_cols_eval (by norm_num) (by norm_num) (by norm_num) (by norm_num)
  have hrows : num_placement_rows 10 30 = 3 :=
    num_placement_rows_eval (by norm_num) (by norm_num) (by norm_num) (by norm_num)
  have htgt : nAP_target 10 50 30 = 8 := by
    rw [nAP_target_pos_eq (show (0 : ℝ) < 10 by norm_num) (show (0 : ℝ) < 50 by norm_num)
      (show (0 : ℝ) < 30 by norm_num)]
    rw [Int.ceil_eq_iff]
    norm_num
  have hmsg : ¬((50 : ℝ) < L_calc 10 ∨ (30 : ℝ) < L_calc 10) := by
    unfold L_calc
    push_neg
    constructor <;> nlinarith [sqrt_two_lt]
  rw [calculateAPPlacement_pos_eval 10 50 30 hdeg hcell, hcols, hrows, htgt, if_neg hmsg]
  rw [show ((3 : ℤ)).toNat = 3 from rfl, show ((4 : ℤ)).toNat = 4 from rfl,
    show ((8 : ℤ)).toNat = 8 from rfl]
  rw [show (50 : ℝ) / ((4 : ℤ) : ℝ) = 12.5 by norm_num,
    show (30 : ℝ) / ((3 : ℤ) : ℝ) = 10 by norm_num]
  rw [show List.take 8 (placementGrid 3 4 (12.5 : ℝ) 10) = placementGrid 2 4 (12.5 : ℝ) 10
    from placementGrid_take_rows 2 3 4 12.5 10 (by omega)]
  have hfinal : (placementGrid 2 4 (12.5 : ℝ) 10).map
      (fun ap => APCoordinate.mk (round2 ap.x) (round2 ap.y)) =
      [⟨6.25, 5⟩, ⟨18.75, 5⟩, ⟨31.25, 5⟩, ⟨43.75, 5⟩,
        ⟨6.25, 15⟩, ⟨18.75, 15⟩, ⟨31.25, 15⟩, ⟨43.75, 15⟩] := by
    have h2 : List.range 2 = [0, 1] := rfl
    have h4 : List.range 4 = [0, 1, 2, 3] := rfl
    simp only [placementGrid, h2, h4, List.flatMap_cons, List.flatMap_nil,
      List.map_cons, List.map_nil, List.map_append, List.append_nil,
      List.cons_append, List.nil_append]
    norm_num [round2, round_eq, APCoordinate.mk.injEq]
  rw [hfinal]
  rfl

lemma calculateAPPlacement_small_eval :
    calculateAPPlacement (1 / 250) (1 / 125) (1 / 125) =
      ⟨2, [⟨0, 0⟩, ⟨1 / 100, 0⟩], none⟩ := by
  have hdeg : ¬((1 / 250 : ℝ) ≤ 0 ∨ (1 / 125 : ℝ) ≤ 0 ∨ (1 / 125 : ℝ) ≤ 0) := by norm_num
  have hcell : ¬(L_calc (1 / 250) < 1e-6) := by
    rw [not_lt]
    unfold L_calc
    nlinarith [sqrt_two_gt]
  have hcols : num_placement_cols (1 / 250) (1 / 125) = 2 :=
    num_placement_cols_eval (by norm_num) (by norm_num) (by norm_num) (by norm_num)
  have hrows : num_placement_rows (1 / 250) (1 / 125) = 2 :=
    num_placement_rows_eval (by norm_num) (by norm_num) (by norm_num) (by norm_num)
  have htgt : nAP_target (1 / 250) (1 / 125) (1 / 125) = 2 := by
    rw [nAP_target_pos_eq (show (0 : ℝ) < 1 / 250 by norm_num)
      (show (0 : ℝ) < 1 / 125 by norm_num) (show (0 : ℝ) < 1 / 125 by norm_num)]
    rw [Int.ceil_eq_iff]
    norm_num
  have hmsg : ¬((1 / 125 : ℝ) < L_calc (1 / 250) ∨ (1 / 125 : ℝ) < L_calc (1 / 250)) := by
    unfold L_calc
    push_neg
    constructor <;> nlinarith [sqrt_two_lt]
  rw [calculateAPPlacement_pos_eval (1 / 250) (1 / 125) (1 / 125) hdeg hcell, hcols, hrows,
    htgt, if_neg hmsg]
  rw [show ((2 : ℤ)).toNat = 2 from rfl]
  rw [show (1 / 125 : ℝ) / ((2 : ℤ) : ℝ) = 1 / 250 by norm_num]
  rw [show List.take 2 (placementGrid 2 2 (1 / 250 : ℝ) (1 / 250)) =
    placementGrid 1 2 (1 / 250 : ℝ) (1 / 250)
    from placementGrid_take_rows 1 2 2 (1 / 250) (1 / 250) (by omega)]
  have hfinal : (placementGrid 1 2 (1 / 250 : ℝ) (1 / 250)).map
      (fun ap => APCoordinate.mk (round2 ap.x) (round2 ap.y)) =
      [⟨0, 0⟩, ⟨1 / 100, 0⟩] := by
    have h1 : List.range 1 = [0] := rfl
    have h2 : List.range 2 = [0, 1] := rfl
    simp only [placementGrid, h1, h2, List.flatMap_cons, List.flatMap_nil,
      List.map_cons, List.map_nil, List.map_append, List.append_nil,
      List.cons_append, List.nil_append]
    norm_num [round2, round_eq, APCoordinate.mk.injEq]
  rw [hfinal]
  rfl

/-- Claim C2 as stated is false on the code: at radius 0.004 m on a
0.008 m × 0.008 m building the second emitted cell center (0.006, 0.002)
rounds to (0.01, 0), and 0.01 exceeds the building length 0.008, so not every
returned coordinate satisfies `x ≤ length`. -/
theorem calculateAPPlacement_bounds_counterexample :
    ¬ (∀ ap ∈ (calculateAPPlacement (1 / 250) (1 / 125) (1 / 125)).coordinates,
        0 ≤ ap.x ∧ ap.x ≤ 1 / 125 ∧ 0 ≤ ap.y ∧ ap.y ≤ 1 / 125) := by
  intro h
  have h2 := h ⟨1 / 100, 0⟩ (by rw [calculateAPPlacement_small_eval]; simp)
  have h3 := h2.2.1
  norm_num at h3

lemma calculateAPPlacement_square_eval :
    calculateAPPlacement 10 10 10 =
      ⟨1, [⟨5, 5⟩],
        some "Las dimensiones del edificio son más pequeñas que el tamaño de celda del AP (L_calc) en una o ambas direcciones. Los APs se colocarán centrados dentro del edificio para cubrirlo lo mejor posible con la configuración dada."⟩ := by
  have hdeg : ¬((10 : ℝ) ≤ 0 ∨ (10 : ℝ) ≤ 0 ∨ (10 : ℝ) ≤ 0) := by norm_num
  have hcell : ¬(L_calc 10 < 1e-6) := by
    rw [not_lt]
    unfold L_calc
    nlinarith [sqrt_two_gt]
  have hcols : num_placement_cols 10 10 = 1 :=
    num_placement_cols_eval (by norm_num) (by norm_num) (by norm_num) (by norm_num)
  have hrows : num_placement_rows 10 10 = 1 :=
    num_placement_rows_eval (by norm_num) (by norm_num) (by norm_num) (by norm_num)
  have htgt : nAP_target 10 10 10 = 1 := by
    rw [nAP_target_pos_eq (show (0 : ℝ) < 10 by norm_num) (show (0 : ℝ) < 10 by norm_num)
      (show (0 : ℝ) < 10 by norm_num)]
    rw [Int.ceil_eq_iff]
    norm_num
  have hmsg : (10 : ℝ) < L_calc 10 ∨ (10 : ℝ) < L_calc 10 := by
    left
    unfold L_calc
    nlinarith [sqrt_two_gt]
  rw [calculateAPPlacement_pos_eval 10 10 10 hdeg hcell, hcols, hrows, htgt, if_pos hmsg]
  rw [show ((1 : ℤ)).toNat = 1 from rfl]
  rw [show (10 : ℝ) / ((1 : ℤ) : ℝ) = 10 by norm_num]
  rw [show List.take 1 (placementGrid 1 1 (10 : ℝ) 10) = placementGrid 1 1 (10 : ℝ) 10
    from placementGrid_take_rows 1 1 1 10 10 (by omega)]
  have hfinal : (placementGrid 1 1 (10 : ℝ) 10).map
      (fun ap => APCoordinate.mk (round2 ap.x) (round2 ap.y)) = [⟨5, 5⟩] := by
    have h1 : List.range 1 = [0] := rfl
    simp only [placementGrid, h1, List.flatMap_cons, List.flatMap_nil,
      List.map_cons, List.map_nil, List.append_nil]
    norm_num [round2, round_eq, APCoordinate.mk.injEq]
  rw [hfinal]
  rfl

/-- Witness for `calculateAPPlacement_bounds_amended`: the single coordinate
(5, 5) returned for radius 10 on a 10 m × 10 m building satisfies the amended
bounds. -/
theorem calculateAPPlacement_bounds_amended_witness :
    (⟨5, 5⟩ : APCoordinate ℝ) ∈ (calculateAPPlacement 10 10 10).coordinates ∧
    (0 ≤ (⟨5, 5⟩ : APCoordinate ℝ).x ∧ (⟨5, 5⟩ : APCoordinate ℝ).x ≤ 10 + 1 / 200 ∧
      0 ≤ (⟨5, 5⟩ : APCoordinate ℝ).y ∧ (⟨5, 5⟩ : APCoordinate ℝ).y ≤ 10 + 1 / 200) := by
  have hmem : (⟨5, 5⟩ : APCoordinate ℝ) ∈ (calculateAPPlacement 10 10 10).coordinates := by
    rw [calculateAPPlacement_square_eval]
    simp
  exact ⟨hmem, calculateAPPlacement_bounds_amended 10 10 10 ⟨5, 5⟩ hmem⟩
